import Mathlib

/-!
# Verification of the rlox bytecode compiler / VM core

A shallow embedding of the parts of the `rlox` Rust sources that the
claims C1-C10 are about:

* the value model (`src/values/values.rs`, `func.rs`, `obj.rs`),
* the instruction set and its `eval` semantics (`src/instructions/...`),
* `Func::call`'s interpreter loop (`src/values/func.rs`),
* the scanner's whitespace/number handling (`src/compiler/scanner.rs`),
* the parser's emission logic for identifiers, `and`/`or` and class
  declarations (`src/compiler/parser.rs`).

Modelling conventions:
* Rust `f64` payloads are modelled as `Rat` (NaN / infinities and the exact
  decimal formatting of floats are not modelled; no claim depends on them).
* `Rc<RefCell<...>>` shared state (operand stack, frames, upvalue array,
  globals) is threaded explicitly through a `VMSt` record; every `eval`
  returns the possibly-mutated state even on error, mirroring the fact that
  mutations through the shared cells persist when an error propagates.
* Rust panics (index out of bounds, `unwrap` on `None`) are a distinguished
  error constructor, and loops are run on explicit fuel with a distinguished
  out-of-fuel marker so that non-termination is observable.
-/

/-- `DefinitionScope` from `src/instructions/define.rs`. -/
inductive Scope : Type where
  | global : Scope
  | local_ (idx : Nat) : Scope
  | upValue (idx : Nat) : Scope
deriving DecidableEq, Repr

/-- `Native` from `src/values/func.rs` (name and arity; the host callback
itself is external code, spec §1 lists native registration as out of scope). -/
structure NativeV : Type where
  name : String
  arity : Nat
deriving DecidableEq, Repr

mutual

/-- `Value` from `src/values/values.rs` (final-stage variant list). -/
inductive Value : Type where
  | number (v : Rat) : Value
  | str (s : String) : Value
  | nil : Value
  | bool (b : Bool) : Value
  | func (f : FuncV) : Value
  | native (n : NativeV) : Value
  | classV (c : ClassV) : Value
  | instV (i : InstanceV) : Value

/-- `Func` from `src/values/func.rs`: name, arity, chunk and the upvalue
window `[upvalue_offset, upvalue_offset + upvalue_count)` into the shared
upvalue array.  The interior-mutable `ip` cell is threaded explicitly
through `funcCall` (it is reset to 0 on entry and restored on exit). -/
inductive FuncV : Type where
  | mk (name : String) (arity : Nat) (chunk : List Inst)
      (uoff : Nat) (ucount : Nat) : FuncV

/-- `Class` from `src/values/obj.rs`: a name and a method table. -/
inductive ClassV : Type where
  | mk (name : String) (methods : List (String × FuncV)) : ClassV

/-- `Instance` from `src/values/obj.rs`: a class and a field table. -/
inductive InstanceV : Type where
  | mk (cls : ClassV) (fields : List (String × Value)) : InstanceV

/-- The instruction subset exercised by the claims (each constructor is one
Rust instruction struct from `src/instructions/`).  `Unary`, `Binary`,
`Print`, `Get` and `Set` are not needed by any claim and are omitted. -/
inductive Inst : Type where
  | constI (v : Value) : Inst
  | pop : Inst
  | popN (n : Nat) : Inst
  | noneI : Inst
  | jump (tgt : Nat) (continueCondition : Bool) : Inst
  | forceJump (tgt : Nat) : Inst
  | ret : Inst
  | call (argc : Nat) (line : Nat) (snippet : String) : Inst
  | defineI (scope : Scope) (operand : String) : Inst
  | resolveI (ident : String) (scope : Scope) : Inst
  | overrideI (ident : String) (scope : Scope) : Inst
  | inheritI (target : Scope) (ident : String) (line : Nat) (snippet : String) : Inst

end

namespace FuncV

def name : FuncV → String
  | .mk n _ _ _ _ => n

def arity : FuncV → Nat
  | .mk _ a _ _ _ => a

def chunk : FuncV → List Inst
  | .mk _ _ c _ _ => c

def uoff : FuncV → Nat
  | .mk _ _ _ o _ => o

def ucount : FuncV → Nat
  | .mk _ _ _ _ k => k

end FuncV

namespace ClassV

def name : ClassV → String
  | .mk n _ => n

def methods : ClassV → List (String × FuncV)
  | .mk _ m => m

end ClassV

namespace InstanceV

def cls : InstanceV → ClassV
  | .mk c _ => c

def fields : InstanceV → List (String × Value)
  | .mk _ f => f

end InstanceV

/-- `impl PartialEq for Func` (`src/values/func.rs` lines 169-177):
name and arity only — the chunk is *not* compared. -/
def funcBeq (a b : FuncV) : Bool :=
  a.name == b.name && a.arity == b.arity

/-- `impl PartialEq for Native` (`src/values/func.rs` lines 235-243). -/
def nativeBeq (a b : NativeV) : Bool :=
  a.name == b.name && a.arity == b.arity

/-- `impl PartialEq for Class` (`src/values/obj.rs` lines 77-85):
name only. -/
def classBeq (a b : ClassV) : Bool :=
  a.name == b.name

/-- `impl PartialEq for Instance` (`src/values/obj.rs` lines 131-139):
the class names only — fields are *not* compared. -/
def instanceBeq (a b : InstanceV) : Bool :=
  a.cls.name == b.cls.name

/-- `#[derive(PartialEq)]` on `Value` (`src/values/values.rs` line 14):
same variant required; payloads compared with the payload `PartialEq`
(which for the shared variants is the custom impl above). -/
def valueBeq : Value → Value → Bool
  | .number a, .number b => a == b
  | .str a, .str b => a == b
  | .nil, .nil => true
  | .bool a, .bool b => a == b
  | .func a, .func b => funcBeq a b
  | .native a, .native b => nativeBeq a b
  | .classV a, .classV b => classBeq a b
  | .instV a, .instV b => instanceBeq a b
  | _, _ => false

/-- Variant discriminant of a `Value` (for stating cross-variant facts). -/
def valueTag : Value → Nat
  | .number _ => 0
  | .str _ => 1
  | .nil => 2
  | .bool _ => 3
  | .func _ => 4
  | .native _ => 5
  | .classV _ => 6
  | .instV _ => 7

/-- `impl Display for Value` (`src/values/values.rs` lines 61-79).
Number formatting is modelled as `toString` on the rational payload. -/
def valueDisplay : Value → String
  | .number v => toString v
  | .nil => "nil"
  | .bool b => if b then "true" else "false"
  | .str s => s
  | .func f => "<Fun " ++ f.name ++ ">"
  | .native n => "<Native Fun " ++ n.name ++ ">"
  | .classV c => "<Class " ++ c.name ++ ">"
  | .instV i => "<Instance " ++ i.cls.name ++ ">"

/-- Runtime failure modes of the embedding. -/
inductive RErr : Type where
  /-- an error value the Rust code constructs (`ValueErr`, `InstructionErr`,
  ...), identified by its message -/
  | err (msg : String) : RErr
  /-- a Rust panic (out-of-bounds index / `unwrap` on `None`) -/
  | panic (what : String) : RErr
  /-- the fuel of the embedding ran out (the Rust loop would keep going) -/
  | outOfFuel : RErr
  /-- a `Native` host callback was reached (host code, out of scope) -/
  | hostNative : RErr
deriving DecidableEq, Repr

/-- `Value::truthy` (`src/values/values.rs` lines 27-38). -/
def truthyV : Value → Except RErr Bool
  | .number v => .ok (!(v == 0))
  | .str _ => .ok true
  | .nil => .ok false
  | .bool b => .ok b
  | v => .error (.err (valueDisplay v ++ " can't be coerced into a boolean value"))

/-- `UpValue` capture descriptor: a source-local index and the captured
value.  Its declaring file (the final-stage resolver) is not under `src/`;
fields follow spec §3 ("Upvalue (capture descriptor) — (source local index
in enclosing frame, runtime captured Value)") and the uses in
`src/values/func.rs` (`.index`, `.value`). -/
structure UpValueE : Type where
  index : Nat
  value : Value

/-- The VM state shared by reference between all instructions: operand
stack (top = last element, as in `Vec`), globals table, call-frame name
list, and the shared upvalue array. -/
structure VMSt : Type where
  stack : List Value
  globals : List (String × Value)
  frames : List String
  ups : List UpValueE

/-- `Table::add` (`src/vm/table.rs`): HashMap insert — overwrite if the key
exists, append otherwise (association-list model of the map). -/
def tableAdd (t : List (String × Value)) (k : String) (v : Value) :
    List (String × Value) :=
  if t.any (fun p => p.1 == k) then
    t.map (fun p => if p.1 == k then (k, v) else p)
  else
    t ++ [(k, v)]

/-- `Table::resolve` (`src/vm/table.rs`). -/
def tableResolve (t : List (String × Value)) (k : String) : Option Value :=
  match t.find? (fun p => p.1 == k) with
  | some p => some p.2
  | none => none

/-- `Table::override_` (`src/vm/table.rs`): update only if present,
reporting absence with `none`. -/
def tableOverride (t : List (String × Value)) (k : String) (v : Value) :
    Option (List (String × Value)) :=
  if t.any (fun p => p.1 == k) then
    some (t.map (fun p => if p.1 == k then (k, v) else p))
  else
    none

/-- The `for` loop of `Func::sync_upvalues`: `k` slots remaining starting at
array index `idx`; `none` models the Rust index panics. -/
def syncLoop : Nat → Nat → List Value → Nat → List UpValueE →
    Option (List UpValueE)
  | 0, _, _, _, ups => some ups
  | k + 1, idx, stack, off, ups =>
    match ups.get? idx with
    | none => none
    | some uv =>
      match stack.get? (uv.index + off) with
      | none => none
      | some val => syncLoop k (idx + 1) stack off (ups.set idx ⟨uv.index, val⟩)

/-- `Func::sync_upvalues` (`src/values/func.rs` lines 129-142): copy
`stack[ups[i].index + off]` into `ups[i].value` for the function's upvalue
window, skipping the sync entirely when the function owns no upvalues or
when `ucount >= stack.len() - off` (saturating). -/
def syncUpvalues (f : FuncV) (stack : List Value) (off : Nat)
    (ups : List UpValueE) : Option (List UpValueE) :=
  if f.ucount = 0 then some ups
  else if stack.length - off ≤ f.ucount then some ups
  else syncLoop f.ucount f.uoff stack off ups

/-- `Class::inherit` (`src/values/obj.rs` lines 39-48): insert each parent
method whose name the child does not already define. -/
def classInherit (child parent : ClassV) : ClassV :=
  .mk child.name
    (child.methods ++
      parent.methods.filter
        (fun m => !(child.methods.any (fun c => c.1 == m.1))))

/-- Result of running `Func::call`'s interpreter loop: the instruction
indices that were executed (ghost trace, for the short-circuit claims), the
final shared VM state, the final value of the function's interior `ip`
cell, and the outcome. -/
structure CallOut : Type where
  trace : List Nat
  st : VMSt
  ip : Nat
  res : Except RErr Value

/-- Error message format of `Call::eval` for a `Func` arity mismatch
(`src/instructions/call.rs` lines 59-69). -/
def callArityMsgFunc (line : Nat) (snippet : String) (arity : Nat)
    (funcDisplay : String) (argsLen : Nat) : String :=
  "\nLine " ++ toString line ++ ": " ++ snippet ++
  "\n         ^\n         -------- Expected " ++ toString arity ++
  " argument(s) for " ++ funcDisplay ++ " found " ++ toString argsLen ++ "\n"

/-- Error message format of `Call::eval` for a `Native` arity mismatch
(`src/instructions/call.rs` lines 77-88). -/
def callArityMsgNative (line : Nat) (snippet : String) (arity : Nat)
    (funcDisplay : String) (argsLen : Nat) : String :=
  "\nLine " ++ toString line ++ ": " ++ snippet ++
  "\n         ^\n         -------- Expected " ++ toString arity ++
  " argument for " ++ funcDisplay ++ " found " ++ toString argsLen ++ "\n"

/-- Error message format of `Call::eval` for a non-callable callee
(`src/instructions/call.rs` lines 96-107). -/
def callNonCallableMsg (line : Nat) (snippet : String)
    (valDisplay : String) : String :=
  "\nLine " ++ toString line ++ ": " ++ snippet ++
  "\n        ^\n        -------- Call pattern `identifier(...)` only allowed for functions/class initializations/methods, not " ++
  valDisplay ++ "\n"

mutual

/-- `InstructionBase::eval` for the embedded instruction subset.  `off` is
the `stack_offset` argument; the upvalue window parameters live in the
`FuncV` values.  Returns the possibly-mutated state and `next_ip` (0 =
fall through) or an error.  The fuel only feeds nested `Func::call`s. -/
def evalInst (fuel : Nat) (i : Inst) (off : Nat) (st : VMSt) :
    VMSt × Except RErr Nat :=
  match i with
  | .constI v => ({st with stack := st.stack ++ [v]}, .ok 0)
  | .pop => ({st with stack := st.stack.dropLast}, .ok 0)
  | .popN n =>
    ({st with stack := st.stack.take (st.stack.length - n)}, .ok 0)
  | .noneI => (st, .ok 0)
  | .jump tgt cc =>
    match st.stack.getLast? with
    | none => (st, .error (.panic "Jump: index out of bounds"))
    | some v =>
      match truthyV v with
      | .error e => (st, .error e)
      | .ok b => if b = cc then (st, .ok 0) else (st, .ok tgt)
  | .forceJump tgt => (st, .ok tgt)
  | .ret => ({st with frames := st.frames.dropLast}, .ok 0)
  | .defineI scope operand =>
    match scope with
    | .global =>
      match st.stack.getLast? with
      | none => (st, .error (.panic "Define: index out of bounds"))
      | some v => ({st with globals := tableAdd st.globals operand v}, .ok 0)
    | .local_ _ => (st, .ok 0)
    | .upValue _ => (st, .ok 0)
  | .resolveI ident scope =>
    match scope with
    | .global =>
      match tableResolve st.globals ident with
      | some v => ({st with stack := st.stack ++ [v]}, .ok 0)
      | none =>
        (st, .error (.err ("undefined variable:: " ++ ident ++ " not found")))
    | .local_ idx =>
      match st.stack.get? (idx + off) with
      | none => (st, .error (.panic "Resolve: index out of bounds"))
      | some v => ({st with stack := st.stack ++ [v]}, .ok 0)
    | .upValue idx =>
      match st.ups.get? idx with
      | none => (st, .error (.panic "Resolve: index out of bounds"))
      | some uv => ({st with stack := st.stack ++ [uv.value]}, .ok 0)
  | .overrideI ident scope =>
    match st.stack.getLast? with
    | none => (st, .error (.panic "Override: index out of bounds"))
    | some val =>
      match scope with
      | .global =>
        match tableOverride st.globals ident val with
        | some g => ({st with globals := g}, .ok 0)
        | none =>
          (st, .error (.err ("undefined variable:: " ++ ident ++ " not found")))
      | .local_ idx =>
        if idx + off < st.stack.length then
          ({st with stack := st.stack.set (idx + off) val}, .ok 0)
        else (st, .error (.panic "Override: index out of bounds"))
      | .upValue idx =>
        match st.ups.get? idx with
        | none => (st, .error (.panic "Override: index out of bounds"))
        | some uv =>
          ({st with ups := st.ups.set idx ⟨uv.index, val⟩}, .ok 0)
  | .inheritI target ident line snippet =>
    match st.stack.getLast? with
    | none => (st, .error (.panic "Inherit: pop unwrap on None"))
    | some parent =>
      let st1 := {st with stack := st.stack.dropLast}
      let child? : Option Value :=
        match target with
        | .global => tableResolve st1.globals ident
        | .local_ idx => st1.stack.get? (idx + off)
        | .upValue idx => (st1.ups.get? idx).map (fun uv => uv.value)
      match child? with
      | none => (st1, .error (.panic "Inherit: child lookup failed"))
      | some child =>
        match parent with
        | .classV pc =>
          match child with
          | .classV cc =>
            -- the Rust code mutates the shared `Rc<Class>` in place; the
            -- pure embedding writes the updated class back to the slot the
            -- child was located in
            let cc1 : Value := .classV (classInherit cc pc)
            match target with
            | .global =>
              ({st1 with globals := tableAdd st1.globals ident cc1}, .ok 0)
            | .local_ idx =>
              ({st1 with stack := st1.stack.set (idx + off) cc1}, .ok 0)
            | .upValue idx =>
              match st1.ups.get? idx with
              | none => (st1, .error (.panic "Inherit: index out of bounds"))
              | some uv =>
                ({st1 with ups := st1.ups.set idx ⟨uv.index, cc1⟩}, .ok 0)
          | _ =>
            (st1, .error (.err ("\nLine " ++ toString line ++ ": " ++ snippet ++
              "\n            ^\n            -------- Invalid inherit target: only class can inherit from classes, not `" ++
              valueDisplay child ++ "`\n")))
        | _ =>
          (st1, .error (.err ("\nLine " ++ toString line ++ ": " ++ snippet ++
            "\n          ^\n          -------- Can only inherit from classes, not `" ++
            valueDisplay parent ++ "`\n")))
  | .call argc line snippet =>
    -- `Call::eval` (`src/instructions/call.rs` lines 39-111)
    let funcPos := st.stack.length - argc - 1
    match st.stack.get? funcPos with
    | none => (st, .error (.panic "Call: remove out of bounds"))
    | some callee =>
      let st1 := {st with stack := st.stack.eraseIdx funcPos}
      match callee with
      | .func f =>
        if f.arity ≠ argc then
          (st1, .error (.err (callArityMsgFunc line snippet f.arity
            (valueDisplay (.func f)) argc)))
        else
          match fuel with
          | 0 => (st1, .error .outOfFuel)
          | fuel' + 1 =>
            let offset := st1.stack.length - argc
            let out := funcCall fuel' f 0 offset st1
            match out.res with
            | .ok v => ({out.st with stack := out.st.stack ++ [v]}, .ok 0)
            | .error e => (out.st, .error e)
      | .native n =>
        if n.arity ≠ argc then
          (st1, .error (.err (callArityMsgNative line snippet n.arity
            (valueDisplay (.native n)) argc)))
        else
          -- host callback (`(*self.call_)(stack)`), external code
          (st1, .error .hostNative)
      | .classV c =>
        ({st1 with stack := st1.stack ++ [.instV (.mk c [])]}, .ok 0)
      | other =>
        (st1, .error (.err (callNonCallableMsg line snippet
          (valueDisplay other))))
termination_by fuel

/-- `Func::call` (`src/values/func.rs` lines 61-119).  `preIp` is the value
of the interior `ip` cell at entry (saved, reset to 0, restored on exit);
the returned `CallOut.ip` is the cell's final value. -/
def funcCall (fuel : Nat) (f : FuncV) (preIp off : Nat) (st : VMSt) :
    CallOut :=
  if 255 ≤ st.frames.length then
    ⟨[], st, preIp, .error (.err "Call stack exceeded")⟩
  else
    match fuel with
    | 0 => ⟨[], st, preIp, .error .outOfFuel⟩
    | fuel' + 1 =>
      let st1 := {st with frames := st.frames ++ [f.name]}
      callLoop fuel' f st1.frames.length preIp off 0 st1
termination_by fuel

/-- The interpreter loop of `Func::call`: run `f.chunk` from `ip`, stepping
`ip := next_ip` when non-zero else `ip + 1`, detecting an early return when
the call-frame list shrinks below `frameSize`. -/
def callLoop (fuel : Nat) (f : FuncV) (frameSize preIp off ip : Nat)
    (st : VMSt) : CallOut :=
  match fuel with
  | 0 => ⟨[], st, ip, .error .outOfFuel⟩
  | fuel' + 1 =>
    if f.chunk.length ≤ ip then
      -- normal fall-through: sync upvalues, pop frame name, restore ip
      match syncUpvalues f st.stack off st.ups with
      | none => ⟨[], st, ip, .error (.panic "sync_upvalues: index out of bounds")⟩
      | some ups1 =>
        ⟨[], {st with frames := st.frames.dropLast, ups := ups1}, preIp, .ok .nil⟩
    else
      match f.chunk.get? ip with
      | none => ⟨[], st, ip, .error (.panic "chunk: index out of bounds")⟩
      | some inst =>
        match evalInst fuel' inst off st with
        | (st1, .error e) => ⟨[ip], st1, ip, .error e⟩
        | (st1, .ok offset) =>
          let ip1 := if 0 < offset then offset else ip + 1
          if st1.frames.length < frameSize then
            -- early return: sync upvalues, pop the return value, truncate
            -- the stack to `off`, restore the saved ip
            match syncUpvalues f st1.stack off st1.ups with
            | none =>
              ⟨[ip], st1, ip1, .error (.panic "sync_upvalues: index out of bounds")⟩
            | some ups1 =>
              match st1.stack.getLast? with
              | none =>
                ⟨[ip], {st1 with ups := ups1}, ip1,
                  .error (.panic "early return: pop unwrap on None")⟩
              | some val =>
                ⟨[ip],
                  {st1 with stack := st1.stack.dropLast.take off, ups := ups1},
                  preIp, .ok val⟩
          else
            let rest := callLoop fuel' f frameSize preIp off ip1 st1
            ⟨ip :: rest.trace, rest.st, rest.ip, rest.res⟩
termination_by fuel

end

/-! ## Scanner (`src/compiler/scanner.rs`) -/

/-- `TokenType` from `src/compiler/token.rs`. -/
inductive TokenType : Type where
  | LEFT_PAREN | RIGHT_PAREN | LEFT_BRACE | RIGHT_BRACE
  | COMMA | DOT | MINUS | PLUS | SEMICOLON | SLASH | STAR
  | BANG | BANG_EQUAL | EQUAL | EQUAL_EQUAL
  | GREATER | GREATER_EQUAL | LESS | LESS_EQUAL
  | IDENTIFIER | STRING | NUMBER
  | AND | CLASS | ELSE | FALSE | FUN | FOR | IF | NIL | OR
  | PRINT | RETURN | SUPER | THIS | TRUE | VAR | WHILE
  | EOF
deriving DecidableEq, Repr

/-- `Token` from `src/compiler/token.rs`: kind, lexeme slice (materialised
as a string), line number. -/
structure TokenE : Type where
  tokType : TokenType
  lexeme : String
  line : Nat
deriving DecidableEq, Repr

/-- The scanner's cursor state (`src/compiler/scanner.rs` lines 18-26):
byte buffer (bytes as characters), `current` and `start` cursors, line
counter. -/
structure ScanSt : Type where
  input : List Char
  current : Nat
  start : Nat
  line : Nat
deriving DecidableEq, Repr

/-- `Scanner::is_at_end`: `current >= input_stream.len() - 1`. -/
def isAtEnd (st : ScanSt) : Bool :=
  decide (st.input.length - 1 ≤ st.current)

/-- `Scanner::advance`: increment `current` only while in bounds. -/
def advanceSc (st : ScanSt) : ScanSt :=
  if st.current < st.input.length then {st with current := st.current + 1}
  else st

/-- `Scanner::is_digit`. -/
def isDigitC (c : Char) : Bool :=
  '0' ≤ c && c ≤ '9'

/-- Outcome of a fueled scanner loop. -/
inductive WsOut : Type where
  /-- the loop broke with this state -/
  | out (st : ScanSt) : WsOut
  /-- a Rust index panic -/
  | panic : WsOut
  /-- fuel exhausted (the Rust loop keeps going) -/
  | fuelOut : WsOut
deriving DecidableEq, Repr

/-- The `//`-comment loop inside `Scanner::skip_whitespace`
(`src/compiler/scanner.rs` lines 167-176): advance while the current char
is not a newline and the scanner is not at the end; consume a terminating
newline. -/
def skipComment : Nat → ScanSt → WsOut
  | 0, _ => .fuelOut
  | fuel + 1, st =>
    match st.input.get? st.current with
    | none => .panic
    | some c =>
      if c != '\n' && !isAtEnd st then skipComment fuel (advanceSc st)
      else if c = '\n' then .out (advanceSc st)
      else .out st

/-- One iteration of the `Scanner::skip_whitespace` loop
(`src/compiler/scanner.rs` lines 158-186). -/
inductive WsStep : Type where
  /-- the iteration ended and the loop re-enters with this state -/
  | cont (st : ScanSt) : WsStep
  /-- the `_ => break` arm was taken -/
  | brk (st : ScanSt) : WsStep
  /-- a Rust index panic -/
  | panic : WsStep
  /-- the comment sub-loop ran out of fuel -/
  | fuelOut : WsStep
deriving DecidableEq, Repr

/-- One iteration of `Scanner::skip_whitespace`: note that the `'/'` arm,
when the next char is not a second `'/'`, does nothing at all — the loop
re-enters with the state unchanged. -/
def skipWsStep (fuel : Nat) (st : ScanSt) : WsStep :=
  match st.input.get? st.current with
  | none => .panic
  | some c =>
    if c = ' ' || c = '\t' || c = '\r' then .cont (advanceSc st)
    else if c = '/' then
      match st.input.get? (st.current + 1) with
      | none => .panic
      | some c2 =>
        if c2 = '/' then
          match skipComment fuel st with
          | .out st1 => .cont st1
          | .panic => .panic
          | .fuelOut => .fuelOut
        else .cont st
    else if c = '\n' then
      .cont (advanceSc {st with line := st.line + 1})
    else .brk st

/-- `Scanner::skip_whitespace` as iteration of `skipWsStep`. -/
def skipWs : Nat → ScanSt → WsOut
  | 0, _ => .fuelOut
  | fuel + 1, st =>
    match skipWsStep (fuel + 1) st with
    | .cont st1 => skipWs fuel st1
    | .brk st1 => .out st1
    | .panic => .panic
    | .fuelOut => .fuelOut

/-- `Scanner::make_token` (`src/compiler/scanner.rs` lines 188-195):
advance once, then slice `input[start..current]` as the lexeme. -/
def makeToken (tt : TokenType) (st : ScanSt) : TokenE × ScanSt :=
  let st1 := advanceSc st
  (⟨tt, String.mk ((st1.input.drop st1.start).take (st1.current - st1.start)),
    st1.line⟩, st1)

/-- The digit loop of `Scanner::number` (`src/compiler/scanner.rs` lines
198-204): advance while `peek_next` is a digit and not at end.  `peek_next`
is evaluated first, so running past the buffer is an index panic. -/
def numberLoop : Nat → ScanSt → WsOut
  | 0, _ => .fuelOut
  | fuel + 1, st =>
    match st.input.get? (st.current + 1) with
    | none => .panic
    | some c =>
      if isDigitC c && !isAtEnd st then numberLoop fuel (advanceSc st)
      else .out st

/-- `Scanner::number` (`src/compiler/scanner.rs` lines 197-207): consume
trailing digits, skip whitespace, emit a NUMBER token.  There is no
handling of a `'.'` followed by a fractional part. -/
def numberFn (fuel : Nat) (st : ScanSt) : Option (TokenE × ScanSt) :=
  match numberLoop fuel st with
  | .out st1 =>
    match skipWs fuel st1 with
    | .out st2 => some (makeToken .NUMBER st2)
    | _ => none
  | _ => none

/-! ## Parser emission (`src/compiler/parser.rs`) -/

/-- The action `Parser::var` ends in when it does not error. -/
inductive VarAct : Type where
  /-- parse the right-hand side (`self.expression()`), then push this
  `Override` instruction -/
  | assignExpr (inst : Inst) : VarAct
  /-- push this `Resolve` instruction -/
  | read (inst : Inst) : VarAct

/-- The exact error text `Parser::var` formats for an assignment to a
`const` name (`src/compiler/parser.rs` lines 285-296); `{}` is the token's
`Display`, i.e. its lexeme. -/
def constAssignMsg (tok : String) : String :=
  "Invalid assignment target. Can not assign to `const` `" ++ tok ++ "`"

/-- `Parser::var` (`src/compiler/parser.rs` lines 248-298).  The two
resolver queries (`check_const_from_token` and `resolve`, whose final-stage
`Compiler` is not under `src/`) are abstracted as the arguments `isConst`
and `resolved`; `matchEq` is the result of `match_(EQUAL)` and `canAssign`
the Pratt flag. -/
def parserVar (tok : String) (isConst : Bool) (resolved : Option Scope)
    (matchEq canAssign : Bool) : Except String VarAct :=
  match resolved with
  | none =>
    .error ("Can not access or overwrite undefined variable: `" ++ tok ++ "`")
  | some scope =>
    if matchEq && canAssign && !isConst then
      .ok (.assignExpr (.overrideI tok scope))
    else if matchEq && !canAssign then
      .error
        "Invalid assignment target. Can only assign to previously defined variables."
    else if matchEq && isConst then
      .error (constAssignMsg tok)
    else
      .ok (.read (.resolveI tok scope))

/-- `Chunk::swap_instructions` (`src/instructions/chunk.rs` lines 48-65):
bounds check against `len - 1`, then an in-place swap of the two slots. -/
def chunkSwap (code : List Inst) (origin dest : Nat) :
    Except String (List Inst) :=
  if code.length = 0 then
    .error "panic: swap on an empty chunk"
  else if origin > code.length - 1 ∨ dest > code.length - 1 then
    .error "instruction swap failed"
  else
    .ok ((code.set origin (code.getD dest .noneI)).set dest
      (code.getD origin .noneI))

/-- `Parser::and` (`src/compiler/parser.rs` lines 314-327): on entry the
chunk holds `code` (ending with the left operand's instructions); push a
`None` placeholder and a `Pop`, parse the right operand (its emitted
instructions are `rhs`), then push `Jump(dest, true)` where `dest` is the
index the jump was emitted at, and swap the placeholder with the jump. -/
def andCompile (code rhs : List Inst) : Except String (List Inst) :=
  let origin := code.length
  let code1 := code ++ [.noneI, .pop] ++ rhs
  let dest := code1.length
  let code2 := code1 ++ [.jump dest true]
  chunkSwap code2 origin dest

/-- `Parser::or` (`src/compiler/parser.rs` lines 300-312): identical to
`Parser::and` except the jump's continue condition is `false`. -/
def orCompile (code rhs : List Inst) : Except String (List Inst) :=
  let origin := code.length
  let code1 := code ++ [.noneI, .pop] ++ rhs
  let dest := code1.length
  let code2 := code1 ++ [.jump dest false]
  chunkSwap code2 origin dest

/-- `Parser::class_decl` (`src/compiler/parser.rs` lines 778-794) over the
remaining token stream: `consume(IDENTIFIER)` (erroring with the
`Parser::consume` message, where `TokenType::IDENTIFIER` displays as
`<var>`), register the name (the resolver's `add_local` result abstracted
as `scope`), then emit `Const(Class(name))` and `Define(scope, name)`.
Nothing else is consumed or emitted. -/
def classDecl (toks : List TokenE) (scope : Scope) :
    Except String (List Inst × List TokenE) :=
  match toks with
  | [] => .error "Expected <var> but found eof"
  | t :: rest =>
    if t.tokType = .IDENTIFIER then
      .ok ([.constI (.classV (.mk t.lexeme [])), .defineI scope t.lexeme],
        rest)
    else
      .error ("Expected <var> but found " ++ t.lexeme)

/-- Recognizer for the `Inherit` instruction (for stating its absence). -/
def Inst.isInherit : Inst → Bool
  | .inheritI _ _ _ _ => true
  | _ => false

/-! ## Helper lemmas -/

/-- Removing the element at the index right after a prefix. -/
theorem eraseIdx_at_prefix_len {α : Type} :
    ∀ (l1 : List α) (x : α) (l2 : List α),
      (l1 ++ x :: l2).eraseIdx l1.length = l1 ++ l2 := by
  intro l1 x l2
  induction l1 with
  | nil => rfl
  | cons a l ih => simp [List.eraseIdx, ih]

/-- Looking up the element at the index right after a prefix. -/
theorem get?_at_prefix_len {α : Type} :
    ∀ (l1 : List α) (x : α) (l2 : List α),
      (l1 ++ x :: l2).get? l1.length = some x := by
  intro l1 x l2
  induction l1 with
  | nil => rfl
  | cons a l ih => simpa using ih

/-! ## C1 — assignment to a `const` name -/

/-- C1, counterexample.  The claim quotes the compile error for
`const x = 1; x = 2;` as "Invalid assignment target. Can not assign to
const x", but `Parser::var` formats the message with backticks around
`const` and around the lexeme, so the produced message is
"Invalid assignment target. Can not assign to \x60const\x60 \x60x\x60". -/
theorem c1_const_msg_counterexample :
    parserVar "x" true (some .global) true true =
      .error "Invalid assignment target. Can not assign to `const` `x`" ∧
    parserVar "x" true (some .global) true true ≠
      .error "Invalid assignment target. Can not assign to const x" := by
  constructor
  · rfl
  · intro h
    simp only [parserVar, constAssignMsg] at h
    simp at h

/-- C1, amended.  When `Parser::var` handles an identifier that resolves to
a `const` declaration, with an `=` following and assignment allowed by the
Pratt context, it always returns the parse error
"Invalid assignment target. Can not assign to \x60const\x60 \x60<name>\x60"
(so compilation fails before any VM execution); and for a `const` name it
never takes the assignment path (no `Override` is ever emitted),
whatever the `match_(EQUAL)` / `can_assign` flags are. -/
theorem c1_const_assign_rejected :
    (∀ (tok : String) (scope : Scope),
      parserVar tok true (some scope) true true = .error (constAssignMsg tok)) ∧
    (∀ (tok : String) (scope : Scope) (mq ca : Bool) (i : Inst),
      parserVar tok true (some scope) mq ca ≠ .ok (.assignExpr i)) := by
  constructor
  · intro tok scope
    rfl
  · intro tok scope mq ca i h
    cases mq <;> cases ca <;> simp [parserVar] at h

/-! ## C4 — class declarations never emit `Inherit` -/

/-- C4.  `Parser::class_decl` consumes exactly the class-name IDENTIFIER
and emits exactly `Const(Class(name))` and `Define(scope, name)`: the token
stream after the name (in particular a `< parent` clause) is left
unconsumed, and no `Inherit` instruction is ever emitted — contradicting
both the claim and the grammar in the parser's own doc comment
(`classDecl -> class IDENTIFIER ( "<" IDENTIFIER )? "{" function* "}"`). -/
theorem c4_class_decl_no_inherit :
    ∀ (name : String) (line : Nat) (scope : Scope) (rest : List TokenE),
      classDecl (⟨.IDENTIFIER, name, line⟩ :: rest) scope =
        .ok ([.constI (.classV (.mk name [])), .defineI scope name], rest) ∧
      ([Inst.constI (.classV (.mk name [])),
        Inst.defineI scope name].all (fun i => !i.isInherit)) = true := by
  intro name line scope rest
  constructor
  · rfl
  · rfl

/-! ## C5 — numeric literals with a fractional part -/

/-- The source text `1.5;`. -/
def c5Input : List Char := ['1', '.', '5', ';']

/-- C5.  Scanning the numeric literal in `1.5;` from the state where
`Scanner::scan` dispatches to `Scanner::number` (both cursors on the `1`)
produces a NUMBER token whose lexeme is just "1" — the digit loop tests
`peek_next` with `is_digit`, which rejects `'.'`, and no code path consumes
a fractional part; the token does not span "1.5" as the claim states. -/
theorem c5_number_drops_fraction :
    numberFn 8 ⟨c5Input, 0, 0, 1⟩ =
      some (⟨.NUMBER, "1", 1⟩, ⟨c5Input, 1, 0, 1⟩) ∧
    ("1" : String) ≠ "1.5" := by
  constructor
  · rfl
  · decide

/-! ## C9 — structural equality of values -/

/-- C9, counterexample.  Two `Func` values with the same name and arity but
different chunks (and two `Instance` values of same-named classes but
different fields) compare equal under the derived `PartialEq`, so equality
is not structural in the claimed sense. -/
theorem c9_equality_counterexample :
    valueBeq (.func (.mk "f" 0 [] 0 0)) (.func (.mk "f" 0 [.pop] 0 0)) = true ∧
    ([] : List Inst) ≠ [.pop] ∧
    valueBeq (.instV (.mk (.mk "C" []) [("a", .nil)]))
      (.instV (.mk (.mk "C" []) [])) = true ∧
    ([("a", Value.nil)] : List (String × Value)) ≠ [] := by
  refine ⟨rfl, ?_, rfl, ?_⟩ <;> simp

/-- C9, amended.  `Value` equality requires the same variant; primitives
compare structurally, but `Func`/`Native` values compare by name and arity
only, `Class` values by name only, and `Instance` values by class name only
(fields are ignored). -/
theorem c9_equality_characterization :
    (∀ f g : FuncV, valueBeq (.func f) (.func g) =
        (f.name == g.name && f.arity == g.arity)) ∧
    (∀ n m : NativeV, valueBeq (.native n) (.native m) =
        (n.name == m.name && n.arity == m.arity)) ∧
    (∀ c d : ClassV, valueBeq (.classV c) (.classV d) = (c.name == d.name)) ∧
    (∀ i j : InstanceV, valueBeq (.instV i) (.instV j) =
        (i.cls.name == j.cls.name)) ∧
    (∀ a b : Rat, valueBeq (.number a) (.number b) = (a == b)) ∧
    (∀ a b : String, valueBeq (.str a) (.str b) = (a == b)) ∧
    (∀ a b : Bool, valueBeq (.bool a) (.bool b) = (a == b)) ∧
    valueBeq .nil .nil = true ∧
    (∀ v w : Value, valueTag v ≠ valueTag w → valueBeq v w = false) := by
  refine ⟨fun _ _ => rfl, fun _ _ => rfl, fun _ _ => rfl, fun _ _ => rfl,
    fun _ _ => rfl, fun _ _ => rfl, fun _ _ => rfl, rfl, ?_⟩
  intro v w h
  cases v <;> cases w <;> first
    | rfl
    | exact absurd rfl h

/-- C9, witness for the amended theorem's cross-variant hypothesis. -/
theorem c9_equality_characterization_witness :
    valueBeq .nil (.bool true) = false :=
  c9_equality_characterization.2.2.2.2.2.2.2.2 .nil (.bool true) (by decide)

/-! ## C10 — (non-)termination of the whitespace-skipping loop -/

/-- The scanner state for the source `/ 2` with both cursors at the `/`:
line 1, about to skip whitespace before scanning the next token. -/
def c10State : ScanSt := ⟨['/', ' ', '2'], 0, 0, 1⟩

/-- C10.  On a `/` that is not followed by a second `/` (a division
operator), the `'/'` arm of `skip_whitespace` neither consumes a byte nor
exits: the loop iteration returns the state unchanged, so the loop runs
forever (for every fuel bound, iterating the step never reaches the `break`
arm).  `Scanner::next` calls `scan`, which calls `skip_whitespace` first,
so `next` does not terminate on such input — refuting the claim that the
loop always either consumes a byte or exits, and making the `'/'  => SLASH`
arm of `scan` unreachable. -/
theorem c10_skip_whitespace_diverges :
    (∀ fuel : Nat, skipWsStep fuel c10State = .cont c10State) ∧
    (∀ fuel : Nat, skipWs fuel c10State = .fuelOut) := by
  have hstep : ∀ fuel : Nat, skipWsStep fuel c10State = .cont c10State :=
    fun _ => rfl
  refine ⟨hstep, ?_⟩
  intro fuel
  induction fuel with
  | zero => rfl
  | succ n ih =>
    simp only [skipWs, hstep]
    exact ih

/-! ## C6 — `Jump::eval` peeks the condition and branches -/

/-- C6.  When the top of the operand stack admits a truthy coercion,
`Jump::eval` returns `0` (fall through) exactly when `truthy(top)` equals
the jump's continue condition and the target otherwise, and the whole VM
state — in particular the operand stack — is returned unchanged (the
condition value is peeked, not popped). -/
theorem c6_jump_eval :
    ∀ (fuel tgt off : Nat) (cc : Bool) (st : VMSt) (s : List Value)
      (v : Value) (b : Bool),
      st.stack = s ++ [v] → truthyV v = .ok b →
      evalInst fuel (.jump tgt cc) off st =
        (st, .ok (if b = cc then 0 else tgt)) := by
  intro fuel tgt off cc st s v b hs hb
  simp only [evalInst, hs, List.getLast?_concat, hb]
  by_cases h : b = cc <;> simp [h]

/-- C6, witness: a falsy top and continue-on-truthy jump to 7. -/
theorem c6_jump_eval_witness :
    evalInst 0 (.jump 7 true) 0 ⟨[.bool false], [], [], []⟩ =
      (⟨[.bool false], [], [], []⟩, .ok 7) := by
  have h := c6_jump_eval 0 7 0 true ⟨[.bool false], [], [], []⟩ []
    (.bool false) false rfl rfl
  simpa using h

/-! ## C3 — `Func::call` return paths -/

/-- C3.  (i) On entry (below the frame cap) `Func::call` pushes its name
onto the frame list, resets its ip to 0 and enters the interpreter loop;
(ii) when the instruction at `ip` is `Return` — which pops a frame name, so
the loop detects that the call-frame list shrank below its pre-entry size —
the loop syncs upvalues, pops the top of the operand stack as the return
value, truncates the operand stack to `stack_offset`, restores the saved
instruction pointer, and returns that popped value (having executed only
the `Return`); (iii) when `ip` has run past the end of the chunk, the loop
syncs upvalues, pops the frame name, restores the saved instruction
pointer, and returns `Nil`. -/
theorem c3_func_call_return_paths :
    (∀ (fuel : Nat) (f : FuncV) (preIp off : Nat) (st : VMSt),
      st.frames.length < 255 →
      funcCall (fuel + 1) f preIp off st =
        callLoop fuel f (st.frames.length + 1) preIp off 0
          {st with frames := st.frames ++ [f.name]}) ∧
    (∀ (fuel : Nat) (f : FuncV) (frameSize preIp off ip : Nat) (st : VMSt)
      (v : Value) (ups1 : List UpValueE),
      f.chunk.get? ip = some .ret →
      st.frames.length = frameSize →
      st.frames ≠ [] →
      st.stack.getLast? = some v →
      syncUpvalues f st.stack off st.ups = some ups1 →
      callLoop (fuel + 1) f frameSize preIp off ip st =
        ⟨[ip], ⟨st.stack.dropLast.take off, st.globals, st.frames.dropLast,
          ups1⟩, preIp, .ok v⟩) ∧
    (∀ (fuel : Nat) (f : FuncV) (frameSize preIp off ip : Nat) (st : VMSt)
      (ups1 : List UpValueE),
      f.chunk.length ≤ ip →
      syncUpvalues f st.stack off st.ups = some ups1 →
      callLoop (fuel + 1) f frameSize preIp off ip st =
        ⟨[], ⟨st.stack, st.globals, st.frames.dropLast, ups1⟩, preIp,
          .ok .nil⟩) := by
  refine ⟨?_, ?_, ?_⟩
  · intro fuel f preIp off st h
    simp only [funcCall, if_neg (by omega : ¬ 255 ≤ st.frames.length)]
    simp
  · intro fuel f frameSize preIp off ip st v ups1 hip hfs hne hv hsync
    have hlt : ip < f.chunk.length := by
      rcases List.get?_eq_some.mp hip with ⟨h, _⟩
      exact h
    have hpos : 0 < st.frames.length := List.length_pos.mpr hne
    simp only [callLoop, if_neg (by omega : ¬ f.chunk.length ≤ ip), hip]
    simp only [evalInst]
    simp [hsync, hv]
    intro h
    exfalso
    omega
  · intro fuel f frameSize preIp off ip st ups1 hend hsync
    simp only [callLoop, if_pos hend, hsync]

/-- C3, witness: a one-instruction chunk `[Return]` run with two frames,
stack offset 1 and saved ip 5 returns the stack top `7`, truncates the
stack, pops the frame and restores ip 5. -/
theorem c3_func_call_return_paths_witness :
    callLoop 2 (.mk "f" 0 [.ret] 0 0) 2 5 1 0
        ⟨[.nil, .number 7], [], ["script", "f"], []⟩ =
      ⟨[0], ⟨[.nil], [], ["script"], []⟩, 5, .ok (.number 7)⟩ := by
  have h := c3_func_call_return_paths.2.1 1 (.mk "f" 0 [.ret] 0 0) 2 5 1 0
    ⟨[.nil, .number 7], [], ["script", "f"], []⟩ (.number 7) []
    rfl rfl (by simp) rfl rfl
  simpa using h

/-! ## Interpreter-loop helper lemmas -/

/-- The entry guard of `Func::call`: at 255 or more frames it errors with
"Call stack exceeded" without pushing a frame, running an instruction, or
touching the operand stack. -/
theorem funcCall_guard :
    ∀ (fuel : Nat) (f : FuncV) (preIp off : Nat) (st : VMSt),
      255 ≤ st.frames.length →
      funcCall fuel f preIp off st =
        ⟨[], st, preIp, .error (.err "Call stack exceeded")⟩ := by
  intro fuel f preIp off st h
  cases fuel with
  | zero => simp only [funcCall, if_pos h]
  | succ n => simp only [funcCall, if_pos h]

/-- `Func::call` entry below the cap: push the frame name, reset ip to 0,
enter the loop with the pre-entry frame count + 1 as the shrink bound. -/
theorem funcCall_entry :
    ∀ (fuel : Nat) (f : FuncV) (preIp off : Nat) (st : VMSt),
      st.frames.length < 255 →
      funcCall (fuel + 1) f preIp off st =
        callLoop fuel f (st.frames.length + 1) preIp off 0
          {st with frames := st.frames ++ [f.name]} := by
  intro fuel f preIp off st h
  simp only [funcCall, if_neg (by omega : ¬ 255 ≤ st.frames.length)]
  simp

/-- One successful, non-shrinking iteration of the interpreter loop. -/
theorem callLoop_step :
    ∀ (fuel : Nat) (f : FuncV) (fs preIp off ip : Nat) (st st1 : VMSt)
      (i : Inst) (nxt : Nat),
      ip < f.chunk.length →
      f.chunk.get? ip = some i →
      evalInst fuel i off st = (st1, .ok nxt) →
      fs ≤ st1.frames.length →
      callLoop (fuel + 1) f fs preIp off ip st =
        (let rest := callLoop fuel f fs preIp off
            (if 0 < nxt then nxt else ip + 1) st1
         ⟨ip :: rest.trace, rest.st, rest.ip, rest.res⟩) := by
  intro fuel f fs preIp off ip st st1 i nxt hlt hget heval hfs
  simp only [callLoop, if_neg (by omega : ¬ f.chunk.length ≤ ip), hget, heval]
  simp [if_neg (by omega : ¬ st1.frames.length < fs)]

/-- An iteration whose instruction evaluation errors aborts the loop,
leaving the state as mutated so far and the ip unrestored. -/
theorem callLoop_err :
    ∀ (fuel : Nat) (f : FuncV) (fs preIp off ip : Nat) (st st1 : VMSt)
      (i : Inst) (e : RErr),
      ip < f.chunk.length →
      f.chunk.get? ip = some i →
      evalInst fuel i off st = (st1, .error e) →
      callLoop (fuel + 1) f fs preIp off ip st = ⟨[ip], st1, ip, .error e⟩ := by
  intro fuel f fs preIp off ip st st1 i e hlt hget heval
  simp only [callLoop, if_neg (by omega : ¬ f.chunk.length ≤ ip), hget, heval]

/-- `Call::eval` on a `Func` callee with the right arity: remove the callee
from the stack, invoke `Func::call` with `stack_offset = len - argc`, and
push the returned value (or propagate the error, with the callee already
removed). -/
theorem evalInst_call_func :
    ∀ (fuel argc line off : Nat) (snip : String) (st : VMSt)
      (pre args : List Value) (f : FuncV),
      st.stack = pre ++ .func f :: args →
      args.length = argc →
      f.arity = argc →
      evalInst (fuel + 1) (.call argc line snip) off st =
        (let out := funcCall fuel f 0 ((pre ++ args).length - argc)
            {st with stack := pre ++ args}
         match out.res with
         | .ok v => ({out.st with stack := out.st.stack ++ [v]}, .ok 0)
         | .error e => (out.st, .error e)) := by
  intro fuel argc line off snip st pre args f hs hargs harity
  have hfp2 : (pre ++ Value.func f :: args).length - argc - 1 = pre.length := by
    simp only [List.length_append, List.length_cons]
    omega
  simp only [evalInst, hs, hfp2, get?_at_prefix_len, eraseIdx_at_prefix_len]
  simp [harity]

/-! ## C8 — the call-depth guard -/

/-- C8, amended.  The guard at the entry of `Func::call` raises the
"Call stack exceeded" error exactly when the frame list already holds at
least 255 names; in that case no frame is pushed, no instruction is
evaluated, and the whole state (in particular the operand stack) is
returned unchanged.  Below the cap, entry pushes exactly one frame name,
keeping the frame list at no more than 255 entries.  (A `Func::call`
entered below the cap can still *return* a propagated "Call stack
exceeded" error raised by the guard of a nested call — see the
counterexample — so the cap characterises where the error is raised, not
which calls return it.) -/
theorem c8_call_depth_guard :
    (∀ (fuel : Nat) (f : FuncV) (preIp off : Nat) (st : VMSt),
      255 ≤ st.frames.length →
      funcCall fuel f preIp off st =
        ⟨[], st, preIp, .error (.err "Call stack exceeded")⟩) ∧
    (∀ (fuel : Nat) (f : FuncV) (preIp off : Nat) (st : VMSt),
      st.frames.length < 255 →
      funcCall (fuel + 1) f preIp off st =
        callLoop fuel f (st.frames.length + 1) preIp off 0
          {st with frames := st.frames ++ [f.name]} ∧
      (st.frames ++ [f.name]).length ≤ 255) := by
  constructor
  · exact funcCall_guard
  · intro fuel f preIp off st h
    refine ⟨funcCall_entry fuel f preIp off st h, ?_⟩
    simp
    omega

/-- C8, witness: at exactly 255 frames the guard fires and the state is
untouched. -/
theorem c8_call_depth_guard_witness :
    funcCall 3 (.mk "f" 0 [] 0 0) 0 0 ⟨[], [], List.replicate 255 "x", []⟩ =
      ⟨[], ⟨[], [], List.replicate 255 "x", []⟩, 0,
        .error (.err "Call stack exceeded")⟩ :=
  c8_call_depth_guard.1 3 (.mk "f" 0 [] 0 0) 0 0
    ⟨[], [], List.replicate 255 "x", []⟩
    (by show 255 ≤ (List.replicate 255 "x").length
        simp only [List.length_replicate]
        omega)

/-- The inner function of the C8 counterexample. -/
def c8Inner : FuncV := .mk "g" 0 [] 0 0

/-- The outer function of the C8 counterexample: it loads `g` and calls it
with zero arguments. -/
def c8Outer : FuncV := .mk "f" 0 [.constI (.func c8Inner), .call 0 1 "g()"] 0 0

/-- 254 call-frame names already on the list. -/
def c8Frames : List String := List.replicate 254 "x"

/-- C8, counterexample to the claimed "if and only if": entered with only
254 frames (below the cap), `Func::call` on `f` still returns the
"Call stack exceeded" error — its own guard passes, `f`'s frame is pushed
(reaching 255), and the nested `Func::call` on `g` raises the error, which
propagates out of the outer `Func::call`. -/
theorem c8_propagation_counterexample :
    c8Frames.length = 254 ∧
    funcCall 10 c8Outer 0 0 ⟨[], [], c8Frames, []⟩ =
      ⟨[0, 1], ⟨[], [], c8Frames ++ ["f"], []⟩, 1,
        .error (.err "Call stack exceeded")⟩ := by
  have hfr : c8Frames.length = 254 := by
    simp only [c8Frames, List.length_replicate]
  refine ⟨hfr, ?_⟩
  have hlen1 : (c8Frames ++ ["f"]).length = 255 := by
    simp only [List.length_append, List.length_cons, List.length_nil, hfr]
  -- entry: f's guard passes at 254 frames, f's frame is pushed
  have e1 : funcCall 10 c8Outer 0 0 ⟨[], [], c8Frames, []⟩ =
      callLoop 9 c8Outer (c8Frames.length + 1) 0 0 0
        ⟨[], [], c8Frames ++ ["f"], []⟩ :=
    funcCall_entry 9 c8Outer 0 0 ⟨[], [], c8Frames, []⟩
      (by show c8Frames.length < 255; omega)
  have h255 : c8Frames.length + 1 = 255 := by omega
  -- iteration 1: Const pushes g onto the operand stack
  have heval1 : evalInst 8 (.constI (.func c8Inner)) 0
      ⟨[], [], c8Frames ++ ["f"], []⟩ =
      (⟨[.func c8Inner], [], c8Frames ++ ["f"], []⟩, .ok 0) := by
    simp [evalInst]
  have e2 : callLoop 9 c8Outer 255 0 0 0 ⟨[], [], c8Frames ++ ["f"], []⟩ =
      (let rest := callLoop 8 c8Outer 255 0 0 1
          ⟨[.func c8Inner], [], c8Frames ++ ["f"], []⟩
       ⟨0 :: rest.trace, rest.st, rest.ip, rest.res⟩) :=
    callLoop_step 8 c8Outer 255 0 0 0 ⟨[], [], c8Frames ++ ["f"], []⟩
      ⟨[.func c8Inner], [], c8Frames ++ ["f"], []⟩
      (.constI (.func c8Inner)) 0
      (by show (0 : Nat) < 2; omega) rfl heval1
      (by show 255 ≤ (c8Frames ++ ["f"]).length; omega)
  -- iteration 2: Call removes g from the stack; g's guard sees 255 frames
  have h3 : evalInst 7 (.call 0 1 "g()") 0
      ⟨[.func c8Inner], [], c8Frames ++ ["f"], []⟩ =
      (let out := funcCall 6 c8Inner 0 0 ⟨[], [], c8Frames ++ ["f"], []⟩
       match out.res with
       | .ok v => ({out.st with stack := out.st.stack ++ [v]}, .ok 0)
       | .error e => (out.st, .error e)) :=
    evalInst_call_func 6 0 1 0 "g()"
      ⟨[.func c8Inner], [], c8Frames ++ ["f"], []⟩ [] [] c8Inner rfl rfl rfl
  have hg : funcCall 6 c8Inner 0 0 ⟨[], [], c8Frames ++ ["f"], []⟩ =
      ⟨[], ⟨[], [], c8Frames ++ ["f"], []⟩, 0,
        .error (.err "Call stack exceeded")⟩ :=
    funcCall_guard 6 c8Inner 0 0 ⟨[], [], c8Frames ++ ["f"], []⟩
      (by show 255 ≤ (c8Frames ++ ["f"]).length; omega)
  have e3 : evalInst 7 (.call 0 1 "g()") 0
      ⟨[.func c8Inner], [], c8Frames ++ ["f"], []⟩ =
      (⟨[], [], c8Frames ++ ["f"], []⟩, .error (.err "Call stack exceeded")) := by
    rw [h3, hg]
  -- the error aborts f's loop and propagates out of the outer Func::call
  have e4 : callLoop 8 c8Outer 255 0 0 1
      ⟨[.func c8Inner], [], c8Frames ++ ["f"], []⟩ =
      ⟨[1], ⟨[], [], c8Frames ++ ["f"], []⟩, 1,
        .error (.err "Call stack exceeded")⟩ :=
    callLoop_err 7 c8Outer 255 0 0 1
      ⟨[.func c8Inner], [], c8Frames ++ ["f"], []⟩
      ⟨[], [], c8Frames ++ ["f"], []⟩
      (.call 0 1 "g()") (.err "Call stack exceeded")
      (by show (1 : Nat) < 2; omega) rfl e3
  rw [e1, h255, e2, e4]

/-! ## C2 — short-circuit layout and execution -/

/-- Looking up the element at the index right after a prefix (getD form). -/
theorem getD_at_prefix_len {α : Type} :
    ∀ (l1 : List α) (x : α) (l2 : List α) (d : α),
      (l1 ++ x :: l2).getD l1.length d = x := by
  intro l1 x l2 d
  induction l1 with
  | nil => rfl
  | cons a l ih => simpa using ih

/-- Updating the element at the index right after a prefix. -/
theorem set_at_prefix_len {α : Type} :
    ∀ (l1 : List α) (x y : α) (l2 : List α),
      (l1 ++ x :: l2).set l1.length y = l1 ++ y :: l2 := by
  intro l1 x y l2
  induction l1 with
  | nil => rfl
  | cons a l ih => simp

/-- The back-patching swap performed by `Parser::and` / `Parser::or`: the
`None` placeholder at `origin` and the conditional jump emitted at `dest`
trade places, leaving the jump before the `Pop` and right-operand code. -/
theorem compile_swap_layout :
    ∀ (code rhs : List Inst) (cc : Bool),
      chunkSwap ((code ++ [Inst.noneI, Inst.pop] ++ rhs) ++
          [Inst.jump (code.length + 2 + rhs.length) cc])
        code.length (code.length + 2 + rhs.length) =
      .ok (code ++ Inst.jump (code.length + 2 + rhs.length) cc ::
        .pop :: (rhs ++ [.noneI])) := by
  intro code rhs cc
  have hlen : ((code ++ [Inst.noneI, Inst.pop] ++ rhs) ++
      [Inst.jump (code.length + 2 + rhs.length) cc]).length =
      code.length + 2 + rhs.length + 1 := by
    simp
    omega
  have hform : (code ++ [Inst.noneI, Inst.pop] ++ rhs) ++
      [Inst.jump (code.length + 2 + rhs.length) cc] =
      code ++ Inst.noneI :: Inst.pop ::
        (rhs ++ [Inst.jump (code.length + 2 + rhs.length) cc]) := by
    simp
  have hform2 : code ++ Inst.noneI :: Inst.pop ::
      (rhs ++ [Inst.jump (code.length + 2 + rhs.length) cc]) =
      (code ++ Inst.noneI :: Inst.pop :: rhs) ++
        [Inst.jump (code.length + 2 + rhs.length) cc] := by
    simp
  have hl2 : (code ++ Inst.noneI :: Inst.pop :: rhs).length =
      code.length + 2 + rhs.length := by
    simp
    omega
  have hgd : ((code ++ [Inst.noneI, Inst.pop] ++ rhs) ++
      [Inst.jump (code.length + 2 + rhs.length) cc]).getD
      (code.length + 2 + rhs.length) .noneI =
      Inst.jump (code.length + 2 + rhs.length) cc := by
    rw [hform, hform2, ← hl2]
    exact getD_at_prefix_len _ _ [] _
  have hgo : ((code ++ [Inst.noneI, Inst.pop] ++ rhs) ++
      [Inst.jump (code.length + 2 + rhs.length) cc]).getD
      code.length .noneI = .noneI := by
    rw [hform]
    exact getD_at_prefix_len _ _ _ _
  simp only [chunkSwap, hlen]
  rw [if_neg (by omega : ¬ code.length + 2 + rhs.length + 1 = 0),
    if_neg (by omega : ¬ (code.length > code.length + 2 + rhs.length + 1 - 1 ∨
      code.length + 2 + rhs.length > code.length + 2 + rhs.length + 1 - 1))]
  rw [hgd, hgo, hform]
  rw [set_at_prefix_len]
  have hform3 : code ++ Inst.jump (code.length + 2 + rhs.length) cc ::
      Inst.pop :: (rhs ++ [Inst.jump (code.length + 2 + rhs.length) cc]) =
      (code ++ Inst.jump (code.length + 2 + rhs.length) cc :: Inst.pop :: rhs) ++
        [Inst.jump (code.length + 2 + rhs.length) cc] := by
    simp
  have hl3 : (code ++ Inst.jump (code.length + 2 + rhs.length) cc ::
      Inst.pop :: rhs).length = code.length + 2 + rhs.length := by
    simp
    omega
  rw [hform3]
  have hset2 := set_at_prefix_len
    (code ++ Inst.jump (code.length + 2 + rhs.length) cc :: Inst.pop :: rhs)
    (Inst.jump (code.length + 2 + rhs.length) cc) Inst.noneI []
  rw [hl3] at hset2
  rw [hset2]
  simp

/-- The post-swap chunk produced by `Parser::and` for left operand ending
at `code` and right operand `rhs`. -/
def andChunk (code rhs : List Inst) : List Inst :=
  code ++ .jump (code.length + 2 + rhs.length) true :: .pop :: (rhs ++ [.noneI])

/-- The post-swap chunk produced by `Parser::or`. -/
def orChunk (code rhs : List Inst) : List Inst :=
  code ++ .jump (code.length + 2 + rhs.length) false :: .pop :: (rhs ++ [.noneI])

/-- `Parser::and` / `Parser::or` produce exactly the swapped layout. -/
theorem and_or_compile_layout :
    ∀ (code rhs : List Inst),
      andCompile code rhs = .ok (andChunk code rhs) ∧
      orCompile code rhs = .ok (orChunk code rhs) := by
  intro code rhs
  have hc1 : (code ++ [Inst.noneI, Inst.pop] ++ rhs).length =
      code.length + 2 + rhs.length := by
    simp
    omega
  constructor
  · simp only [andCompile, hc1, andChunk]
    exact compile_swap_layout code rhs true
  · simp only [orCompile, hc1, orChunk]
    exact compile_swap_layout code rhs false

/-- Two steps of the interpreter loop through a taken conditional jump at
`origin` whose target `dest` holds the `None` placeholder: execution goes
`origin -> dest -> dest + 1`, touching no instruction strictly between
`origin` and `dest` and leaving the whole VM state unchanged. -/
theorem callLoop_jump_skip :
    ∀ (fuel : Nat) (f : FuncV) (fs preIp off origin dest : Nat) (cc : Bool)
      (st : VMSt) (s : List Value) (v : Value) (b : Bool),
      f.chunk.get? origin = some (.jump dest cc) →
      f.chunk.get? dest = some .noneI →
      origin < f.chunk.length →
      dest < f.chunk.length →
      0 < dest →
      st.stack = s ++ [v] →
      truthyV v = .ok b →
      b ≠ cc →
      fs ≤ st.frames.length →
      callLoop (fuel + 2) f fs preIp off origin st =
        (let rest := callLoop fuel f fs preIp off (dest + 1) st
         ⟨origin :: dest :: rest.trace, rest.st, rest.ip, rest.res⟩) := by
  intro fuel f fs preIp off origin dest cc st s v b hgo hgd ho hd hdp hs hb hbc hfs
  have heval1 : evalInst (fuel + 1) (.jump dest cc) off st = (st, .ok dest) := by
    simp only [evalInst, hs, List.getLast?_concat, hb]
    rw [if_neg hbc]
  have heval2 : evalInst fuel .noneI off st = (st, .ok 0) := by
    simp [evalInst]
  have h1 := callLoop_step (fuel + 1) f fs preIp off origin st st
    (.jump dest cc) dest ho hgo heval1 hfs
  have h2 := callLoop_step fuel f fs preIp off dest st st .noneI 0 hd hgd
    heval2 hfs
  show callLoop (fuel + 1 + 1) f fs preIp off origin st = _
  rw [h1]
  simp only [if_pos hdp]
  rw [h2]
  simp

/-- C2.  For `a and b`: after the left operand's code (ending the chunk
prefix `code`), `Parser::and` leaves the chunk as
`code ++ [Jump(dest, true), Pop] ++ rhs ++ [None]` with
`dest = |code| + 2 + |rhs|` (the emitted jump swapped into the placeholder
slot before the `Pop` and right-operand code); running the loop from the
jump with a falsy value of `a` on top executes only the instructions at
`|code|` (the jump) and `dest` (the no-op placeholder) — the `Pop` and the
instructions compiled from `b` are never executed — and continues past the
fragment with the VM state unchanged, so the value of `a` remains on the
stack as the result.  Symmetrically for `a or b` with a truthy `a`. -/
theorem c2_short_circuit :
    ∀ (code rhs : List Inst) (nm : String) (ar uo uc : Nat)
      (fuel fs preIp off : Nat) (st : VMSt) (s : List Value) (v : Value)
      (b : Bool),
      st.stack = s ++ [v] → truthyV v = .ok b → fs ≤ st.frames.length →
      andCompile code rhs = .ok (andChunk code rhs) ∧
      orCompile code rhs = .ok (orChunk code rhs) ∧
      (b = false →
        callLoop (fuel + 2) (.mk nm ar (andChunk code rhs) uo uc) fs preIp off
            code.length st =
          (let rest := callLoop fuel (.mk nm ar (andChunk code rhs) uo uc) fs
              preIp off (code.length + 2 + rhs.length + 1) st
           ⟨code.length :: (code.length + 2 + rhs.length) :: rest.trace,
             rest.st, rest.ip, rest.res⟩)) ∧
      (b = true →
        callLoop (fuel + 2) (.mk nm ar (orChunk code rhs) uo uc) fs preIp off
            code.length st =
          (let rest := callLoop fuel (.mk nm ar (orChunk code rhs) uo uc) fs
              preIp off (code.length + 2 + rhs.length + 1) st
           ⟨code.length :: (code.length + 2 + rhs.length) :: rest.trace,
             rest.st, rest.ip, rest.res⟩)) := by
  intro code rhs nm ar uo uc fuel fs preIp off st s v b hs hb hfs
  have hLa : (code ++ Inst.jump (code.length + 2 + rhs.length) true ::
      Inst.pop :: rhs).length = code.length + 2 + rhs.length := by
    simp
    omega
  have hLo : (code ++ Inst.jump (code.length + 2 + rhs.length) false ::
      Inst.pop :: rhs).length = code.length + 2 + rhs.length := by
    simp
    omega
  refine ⟨(and_or_compile_layout code rhs).1, (and_or_compile_layout code rhs).2,
    ?_, ?_⟩
  · intro hbf
    subst hbf
    refine callLoop_jump_skip fuel _ fs preIp off code.length
      (code.length + 2 + rhs.length) true st s v false ?_ ?_ ?_ ?_ ?_ hs hb
      (by simp) hfs
    · exact get?_at_prefix_len code _ _
    · have h0 := get?_at_prefix_len
        (code ++ Inst.jump (code.length + 2 + rhs.length) true ::
          Inst.pop :: rhs) Inst.noneI []
      rw [hLa] at h0
      show (andChunk code rhs).get? (code.length + 2 + rhs.length) = _
      have hA : andChunk code rhs =
          (code ++ Inst.jump (code.length + 2 + rhs.length) true ::
            Inst.pop :: rhs) ++ [Inst.noneI] := by
        simp [andChunk]
      rw [hA]
      exact h0
    · show code.length < (andChunk code rhs).length
      simp [andChunk]
    · show code.length + 2 + rhs.length < (andChunk code rhs).length
      simp [andChunk]
      omega
    · omega
  · intro hbt
    subst hbt
    refine callLoop_jump_skip fuel _ fs preIp off code.length
      (code.length + 2 + rhs.length) false st s v true ?_ ?_ ?_ ?_ ?_ hs hb
      (by simp) hfs
    · exact get?_at_prefix_len code _ _
    · have h0 := get?_at_prefix_len
        (code ++ Inst.jump (code.length + 2 + rhs.length) false ::
          Inst.pop :: rhs) Inst.noneI []
      rw [hLo] at h0
      show (orChunk code rhs).get? (code.length + 2 + rhs.length) = _
      have hA : orChunk code rhs =
          (code ++ Inst.jump (code.length + 2 + rhs.length) false ::
            Inst.pop :: rhs) ++ [Inst.noneI] := by
        simp [orChunk]
      rw [hA]
      exact h0
    · show code.length < (orChunk code rhs).length
      simp [orChunk]
    · show code.length + 2 + rhs.length < (orChunk code rhs).length
      simp [orChunk]
      omega
    · omega

/-- C2, witness: `false and nil` — left operand code `[Const(false)]`,
right operand code `[Const(nil)]`; with the falsy `false` on top the loop
hops from the jump at index 1 straight to the placeholder at index 4,
skipping the `Pop` and the right operand, stack unchanged. -/
theorem c2_short_circuit_witness :
    andCompile [.constI (.bool false)] [.constI .nil] =
      .ok (andChunk [.constI (.bool false)] [.constI .nil]) ∧
    callLoop 3 (.mk "f" 0 (andChunk [.constI (.bool false)] [.constI .nil]) 0 0)
        1 0 0 1 ⟨[.bool false], [], ["f"], []⟩ =
      (let rest := callLoop 1
          (.mk "f" 0 (andChunk [.constI (.bool false)] [.constI .nil]) 0 0)
          1 0 0 5 ⟨[.bool false], [], ["f"], []⟩
       ⟨1 :: 4 :: rest.trace, rest.st, rest.ip, rest.res⟩) := by
  have h := c2_short_circuit [.constI (.bool false)] [.constI .nil] "f" 0 0 0
    1 1 0 0 ⟨[.bool false], [], ["f"], []⟩ [] (.bool false) false
    rfl rfl (Nat.le_refl 1)
  exact ⟨h.1, h.2.2.1 rfl⟩

/-! ## C7 — arity mismatch on calls -/

/-- C7.  When the callee located (and removed) by `Call::eval` is a
`Function` or `Native` value whose arity differs from the argument count,
evaluation stops with a runtime error whose message contains both the
expected arity and the number of arguments found; the result does not
depend on the callee's body — its chunk does not occur in the error — so
the body is never invoked (only the removal of the callee from the operand
stack persists). -/
theorem c7_call_arity_mismatch :
    (∀ (fuel argc line off : Nat) (snip : String) (st : VMSt)
      (pre args : List Value) (f : FuncV),
      st.stack = pre ++ .func f :: args →
      args.length = argc →
      f.arity ≠ argc →
      evalInst fuel (.call argc line snip) off st =
        (⟨pre ++ args, st.globals, st.frames, st.ups⟩,
          .error (.err (callArityMsgFunc line snip f.arity
            ("<Fun " ++ f.name ++ ">") argc))) ∧
      ∃ s1 s2 s3,
        callArityMsgFunc line snip f.arity ("<Fun " ++ f.name ++ ">") argc =
          s1 ++ toString f.arity ++ s2 ++ toString argc ++ s3) ∧
    (∀ (fuel argc line off : Nat) (snip : String) (st : VMSt)
      (pre args : List Value) (n : NativeV),
      st.stack = pre ++ .native n :: args →
      args.length = argc →
      n.arity ≠ argc →
      evalInst fuel (.call argc line snip) off st =
        (⟨pre ++ args, st.globals, st.frames, st.ups⟩,
          .error (.err (callArityMsgNative line snip n.arity
            ("<Native Fun " ++ n.name ++ ">") argc))) ∧
      ∃ s1 s2 s3,
        callArityMsgNative line snip n.arity ("<Native Fun " ++ n.name ++ ">")
            argc =
          s1 ++ toString n.arity ++ s2 ++ toString argc ++ s3) := by
  constructor
  · intro fuel argc line off snip st pre args f hs hargs harity
    constructor
    · have hfp2 : (pre ++ Value.func f :: args).length - argc - 1 =
          pre.length := by
        simp only [List.length_append, List.length_cons]
        omega
      simp only [evalInst, hs, hfp2, get?_at_prefix_len, eraseIdx_at_prefix_len]
      simp [harity, valueDisplay]
    · refine ⟨"\nLine " ++ toString line ++ ": " ++ snip ++
        "\n         ^\n         -------- Expected ",
        " argument(s) for " ++ ("<Fun " ++ f.name ++ ">") ++ " found ",
        "\n", ?_⟩
      simp [callArityMsgFunc, String.append_assoc]
  · intro fuel argc line off snip st pre args n hs hargs harity
    constructor
    · have hfp2 : (pre ++ Value.native n :: args).length - argc - 1 =
          pre.length := by
        simp only [List.length_append, List.length_cons]
        omega
      simp only [evalInst, hs, hfp2, get?_at_prefix_len, eraseIdx_at_prefix_len]
      simp [harity, valueDisplay]
    · refine ⟨"\nLine " ++ toString line ++ ": " ++ snip ++
        "\n         ^\n         -------- Expected ",
        " argument for " ++ ("<Native Fun " ++ n.name ++ ">") ++ " found ",
        "\n", ?_⟩
      simp [callArityMsgNative, String.append_assoc]

/-- C7, witness: calling a two-parameter function with zero arguments. -/
theorem c7_call_arity_mismatch_witness :
    evalInst 5 (.call 0 3 "f()") 0 ⟨[.func (.mk "f" 2 [] 0 0)], [], [], []⟩ =
      (⟨[], [], [], []⟩,
        .error (.err (callArityMsgFunc 3 "f()" 2 "<Fun f>" 0))) := by
  have h := (c7_call_arity_mismatch.1 5 0 3 0 "f()"
    ⟨[.func (.mk "f" 2 [] 0 0)], [], [], []⟩ [] [] (.mk "f" 2 [] 0 0)
    rfl rfl (by decide)).1
  simpa using h
